import Mathlib

/-!
Verification of the provider dispatch engine of the mesuit/backend proxy
(routes/proxy.js): the answer normalizer (`extractAnswer`), the request
shaper (`callProvider`'s three shapes), the per-provider retry loop, the
ordered fallback dispatcher, and the response cache of the `/chat` route.
All definitions are shallow embeddings of the JavaScript source.
-/

namespace MesuitBackend

/-- Model of a decoded JavaScript/JSON value as manipulated by the proxy:
the payloads returned by providers and probed by `extractAnswer`. -/
inductive Js where
  | null : Js
  | undefined : Js
  | bool : Bool → Js
  | num : Int → Js
  | str : String → Js
  | arr : List Js → Js
  | obj : List (String × Js) → Js

/-- JavaScript truthiness of a value (`if (v)`); `null`/`undefined`,
`false`, `0` and the empty string are falsy, arrays and objects truthy. -/
def truthy : Js → Bool
  | .null => false
  | .undefined => false
  | .bool b => b
  | .num n => n != 0
  | .str s => s != ""
  | .arr _ => true
  | .obj _ => true

/-- JavaScript property access `v.k` (and `v?.k`): objects look the key up,
every non-object yields `undefined` (as optional chaining does on
primitives and nullish values). -/
def getProp : Js → String → Js
  | .obj kvs, k =>
    match kvs.lookup k with
    | some v => v
    | none => .undefined
  | _, _ => .undefined

/-- JavaScript index access `v[i]` (and `v?.[i]`): arrays index positionally,
strings yield a one-character string, objects look up the decimal key,
everything else yields `undefined`. -/
def getIndex : Js → Nat → Js
  | .arr xs, i =>
    match xs.get? i with
    | some v => v
    | none => .undefined
  | .str s, i =>
    match s.data.get? i with
    | some c => .str (String.mk [c])
    | none => .undefined
  | .obj kvs, i =>
    match kvs.lookup (toString i) with
    | some v => v
    | none => .undefined
  | _, _ => .undefined

/-- Lower-case hexadecimal digit, used by JSON string escaping. -/
def hexLower (n : Nat) : Char :=
  if n < 10 then Char.ofNat (48 + n) else Char.ofNat (87 + n)

/-- JSON escaping of one character inside a string literal, as
`JSON.stringify` performs it. -/
def escChar (c : Char) : List Char :=
  if c = '"' then ['\\', '"']
  else if c = '\\' then ['\\', '\\']
  else if c = '\n' then ['\\', 'n']
  else if c = '\r' then ['\\', 'r']
  else if c = '\t' then ['\\', 't']
  else if c.toNat = 8 then ['\\', 'b']
  else if c.toNat = 12 then ['\\', 'f']
  else if c.toNat < 32 then
    ['\\', 'u', '0', '0', hexLower (c.toNat / 16), hexLower (c.toNat % 16)]
  else [c]

/-- JSON string literal for `s`: quotes around the escaped characters. -/
def quoteStr (s : String) : String :=
  String.mk ('"' :: s.data.flatMap escChar ++ ['"'])

mutual

/-- Model of `JSON.stringify` on a value: `none` models the `undefined`
result for a top-level `undefined` argument; inside arrays `undefined`
serializes as `null`, inside objects such entries are omitted. -/
def stringifyVal : Js → Option String
  | .null => some "null"
  | .undefined => none
  | .bool b => some (if b then "true" else "false")
  | .num n => some (toString n)
  | .str s => some (quoteStr s)
  | .arr xs => some ("[" ++ String.intercalate "," (stringifyArr xs) ++ "]")
  | .obj kvs => some ("\x7b" ++ String.intercalate "," (stringifyObj kvs) ++ "\x7d")

/-- Serialization of array elements, `undefined` entries becoming `null`. -/
def stringifyArr : List Js → List String
  | [] => []
  | x :: xs =>
    (match stringifyVal x with
     | some s => s
     | none => "null") :: stringifyArr xs

/-- Serialization of object entries, entries with `undefined` values omitted. -/
def stringifyObj : List (String × Js) → List String
  | [] => []
  | kv :: kvs =>
    match stringifyVal kv.2 with
    | some s => (quoteStr kv.1 ++ ":" ++ s) :: stringifyObj kvs
    | none => stringifyObj kvs

end

/-- Total wrapper around `stringifyVal`; the `undefined` case is unreachable
where the proxy uses it (the fallback only runs on truthy payloads). -/
def jsonOf (d : Js) : String :=
  match stringifyVal d with
  | some s => s
  | none => ""

/-- Embedding of `extractAnswer` from routes/proxy.js:

  function extractAnswer(data) {
    if (!data) return null;
    if (typeof data === "string") return data;
    if (data.result) return data.result;
    if (data.answer) return data.answer;
    if (data.output) return data.output;
    if (data.choices?.[0]?.text) return data.choices[0].text;
    if (data.choices?.[0]?.message?.content) return data.choices[0].message.content;
    return JSON.stringify(data);
  }

The JavaScript `null` return is modelled as `Js.null`. -/
def extractAnswer (data : Js) : Js :=
  if !truthy data then .null
  else
    match data with
    | .str s => .str s
    | _ =>
      if truthy (getProp data "result") then getProp data "result"
      else if truthy (getProp data "answer") then getProp data "answer"
      else if truthy (getProp data "output") then getProp data "output"
      else if truthy (getProp (getIndex (getProp data "choices") 0) "text") then
        getProp (getIndex (getProp data "choices") 0) "text"
      else if truthy (getProp (getProp (getIndex (getProp data "choices") 0) "message") "content") then
        getProp (getProp (getIndex (getProp data "choices") 0) "message") "content"
      else
        match stringifyVal data with
        | some s => .str s
        | none => .undefined

/-- Boolean prefix test on character lists. -/
def prefixOfB : List Char → List Char → Bool
  | [], _ => true
  | _ :: _, [] => false
  | a :: as, b :: bs => a == b && prefixOfB as bs

/-- Boolean test: does `sub` occur as a contiguous run somewhere in `l`? -/
def infixAt (sub : List Char) : List Char → Bool
  | [] => prefixOfB sub []
  | c :: rest => prefixOfB sub (c :: rest) || infixAt sub rest

/-- JavaScript `s.includes(sub)`: substring containment. -/
def includes (s sub : String) : Bool :=
  infixAt sub.data s.data

/-- JavaScript `s.endsWith(sub)`: suffix test. -/
def endsWithB (s sub : String) : Bool :=
  prefixOfB sub.data.reverse s.data.reverse

/-- JavaScript `s.split("?")[0]`: the characters before the first '?'
(the whole string when it has no '?'). -/
def beforeQMark (s : String) : String :=
  String.mk (s.data.takeWhile fun c => c != '?')

/-- Characters `encodeURIComponent` leaves unescaped:
letters, digits and `- _ . ! ~ * ' ( )`. -/
def isUnreservedURI (c : Char) : Bool :=
  (65 ≤ c.toNat && c.toNat ≤ 90) || (97 ≤ c.toNat && c.toNat ≤ 122) ||
  (48 ≤ c.toNat && c.toNat ≤ 57) ||
  c == '-' || c == '_' || c == '.' || c == '!' || c == '~' || c == '*' ||
  c == '\'' || c == '(' || c == ')'

/-- UTF-8 byte sequence of a Unicode code point. -/
def utf8Bytes (n : Nat) : List Nat :=
  if n < 128 then [n]
  else if n < 2048 then [192 + n / 64, 128 + n % 64]
  else if n < 65536 then [224 + n / 4096, 128 + (n / 64) % 64, 128 + n % 64]
  else [240 + n / 262144, 128 + (n / 4096) % 64, 128 + (n / 64) % 64, 128 + n % 64]

/-- Upper-case hexadecimal digit, as percent-escapes use. -/
def hexUpper (n : Nat) : Char :=
  if n < 10 then Char.ofNat (48 + n) else Char.ofNat (55 + n)

/-- Percent-escape of one byte, e.g. 32 becomes "%20". -/
def pctByte (b : Nat) : List Char :=
  ['%', hexUpper (b / 16), hexUpper (b % 16)]

/-- Model of JavaScript `encodeURIComponent`: unreserved characters pass
through, every other character is percent-escaped byte-wise in UTF-8. -/
def encodeURIComponent (s : String) : String :=
  String.mk (s.data.flatMap fun c =>
    if isUnreservedURI c then [c] else (utf8Bytes c.toNat).flatMap pctByte)

/-- One-shot replacement of the regex `q=[^&]*` as JavaScript
`String.prototype.replace` performs it with a non-global regex: the
leftmost occurrence of "q=" together with the following run of
non-'&' characters is replaced by `repl`; when the regex does not match,
the string is returned unchanged. -/
def replaceFirstQ (s : List Char) (repl : List Char) : List Char :=
  match s with
  | [] => []
  | c :: rest =>
    if c == 'q' && rest.head? == some '=' then
      repl ++ (rest.drop 1).dropWhile (fun ch => ch != '&')
    else c :: replaceFirstQ rest repl

/-- Embedding of the `urlToCall` computation of `callProvider`'s GET branch:

  const urlToCall = providerUrl.endsWith("=")
    ? providerUrl + encodeURIComponent(q)
    : providerUrl.includes("=q")
    ? providerUrl.replace(/q=[^&]*/, `q=$\x7benc\x7d`)
    : providerUrl + encodeURIComponent(q);
-/
def getUrlToCall (providerUrl q : String) : String :=
  if endsWithB providerUrl "=" then providerUrl ++ encodeURIComponent q
  else if includes providerUrl "=q" then
    String.mk (replaceFirstQ providerUrl.data ('q' :: '=' :: (encodeURIComponent q).data))
  else providerUrl ++ encodeURIComponent q

/-- An attached uploaded file as the route sees it (multer disk storage):
the path of the stored file, from which each attempt opens a fresh
read stream. -/
structure FileInfo where
  path : String
deriving DecidableEq

/-- The outbound request `callProvider` builds for one attempt: a
multipart/form-data POST with an `image` stream field and an optional `q`
field, a plain GET on a constructed URL, or a JSON POST of the body
consisting of the single entry `q`. -/
inductive Request where
  | multipartPost (url : String) (imagePath : String) (qField : Option String)
  | getReq (url : String)
  | postJson (url : String) (q : String)
deriving DecidableEq

/-- The shape decision of `callProvider` when the multipart branch was not
taken: GET when the URL has '?' and '=' but not "image=", else JSON POST. -/
def shapeNoFile (providerUrl q : String) : Request :=
  if includes providerUrl "?" && includes providerUrl "=" && !includes providerUrl "image=" then
    .getReq (getUrlToCall providerUrl q)
  else .postJson providerUrl q

/-- The full shape decision of one `callProvider` attempt: multipart when a
file is attached and the URL contains "image=" (target is the URL split at
the first '?', `q` field present only for non-empty query text), otherwise
the no-file decision. -/
def shapeRequest (providerUrl q : String) (file : Option FileInfo) : Request :=
  match file with
  | some f =>
    if includes providerUrl "image=" then
      .multipartPost (beforeQMark providerUrl) f.path
        (if q = "" then none else some q)
    else shapeNoFile providerUrl q
  | none => shapeNoFile providerUrl q

/-- The URL-construction rule in the words of the specification (section
4.2, rule 2): first, when the identifier already contains a parameter named
`q` (pattern `q=...`), that parameter's value is replaced with the
URL-encoded query text; else, when the identifier ends with '=', the
URL-encoded query text is appended directly; else it is appended as a raw
suffix. Stated for comparison with `getUrlToCall`, which the source defines. -/
def claimUrlToCall (providerUrl q : String) : String :=
  if includes providerUrl "q=" then
    String.mk (replaceFirstQ providerUrl.data ('q' :: '=' :: (encodeURIComponent q).data))
  else if endsWithB providerUrl "=" then providerUrl ++ encodeURIComponent q
  else providerUrl ++ encodeURIComponent q

/-- The URL-construction rule the code actually implements, stated in the
amended claim's words: when the identifier ends with '=', append the
URL-encoded query text; else, when the identifier contains the substring
"=q", replace the leftmost `q=[^&]*` match's value with the URL-encoded
query text (leaving the URL unchanged when no `q=` occurs at all); else
append the URL-encoded query text as a raw suffix. -/
def amendedUrlToCall (providerUrl q : String) : String :=
  if endsWithB providerUrl "=" then providerUrl ++ encodeURIComponent q
  else if includes providerUrl "=q" then
    String.mk (replaceFirstQ providerUrl.data ('q' :: '=' :: (encodeURIComponent q).data))
  else providerUrl ++ encodeURIComponent q

/-- Outcome of one network attempt against a provider: the oracle the
embedding abstracts axios with. Either the upstream responds with a
decoded payload, or the attempt throws (network failure, timeout, error
status), carrying the error message. -/
inductive AttemptRes where
  | ok (payload : Js)
  | err (msg : String)

/-- Whether an attempt outcome is a thrown error. -/
def isErrB : AttemptRes → Bool
  | .ok _ => false
  | .err _ => true

/-- The error message of a failed attempt. -/
def errMsg : AttemptRes → Option String
  | .ok _ => none
  | .err e => some e

/-- The value `callProvider` resolves with: a success flag with the
payload, or a failure with the recorded error. -/
structure CallResult where
  success : Bool
  data : Js
  error : Option String

/-- One `callProvider` run together with its observable trace: how many
network attempts were made and which backoff sleeps (in milliseconds)
were performed between attempts, in order. -/
structure CallOut where
  result : CallResult
  nAttempts : Nat
  sleeps : List Nat

/-- The retry loop of `callProvider`, entered at attempt index `attempt`
with `remaining` iterations left (`remaining = attempts - attempt`
whenever the loop is entered from the top):

  for (let attempt = 0; attempt < ATTEMPTS; attempt++) {
    try { ... return { success: true, data: res.data }; }
    catch (err) {
      if (attempt === ATTEMPTS - 1) return { success: false, error: err };
      await new Promise(r => setTimeout(r, 200 * (attempt + 1)));
    }
  }
  return { success: false, error: new Error("Max attempts reached") };
-/
def callFrom (net : Nat → AttemptRes) (attempts : Nat) : Nat → Nat → CallOut
  | _, 0 => ⟨⟨false, .undefined, some "Max attempts reached"⟩, 0, []⟩
  | attempt, remaining + 1 =>
    match net attempt with
    | .ok d => ⟨⟨true, d, none⟩, 1, []⟩
    | .err e =>
      if attempt = attempts - 1 then ⟨⟨false, .undefined, some e⟩, 1, []⟩
      else
        let rest := callFrom net attempts (attempt + 1) remaining
        ⟨rest.result, rest.nAttempts + 1, 200 * (attempt + 1) :: rest.sleeps⟩

/-- Embedding of `callProvider`: the retry loop started at attempt 0 with
the full attempt budget. The outcome of sending the shaped request on
attempt `a` is abstracted as `net a`. -/
def callProvider (net : Nat → AttemptRes) (attempts : Nat) : CallOut :=
  callFrom net attempts 0 attempts

/-- One stored cache entry: the cached value and its expiry instant
(insertion time plus TTL), as node-cache keeps with stdTTL. -/
structure CacheEntry where
  value : Js
  expiry : Nat

/-- The response cache: an association of cache keys to entries. -/
structure Cache where
  entries : List (String × CacheEntry)

/-- node-cache `get` at time `now`: the stored value when the entry is
live (strictly before its expiry), otherwise `undefined` — an absent and
an expired entry both miss. -/
def Cache.getAt (c : Cache) (key : String) (now : Nat) : Js :=
  match c.entries.lookup key with
  | some e => if now < e.expiry then e.value else .undefined
  | none => .undefined

/-- node-cache `set` at time `now` with TTL `ttl`: the key maps to the
value with expiry `now + ttl`, replacing any previous entry. -/
def Cache.setAt (c : Cache) (key : String) (v : Js) (now ttl : Nat) : Cache :=
  ⟨(key, ⟨v, now + ttl⟩) :: c.entries.filter fun kv => kv.1 != key⟩

/-- The response the /chat route sends, by status and payload:
400 missing input, 200 from cache, 200 freshly answered, 500 no
providers configured, 502 all providers failed. -/
inductive ChatResp where
  | missingInput
  | fromCache (answer : Js)
  | answered (answer : Js)
  | noProviders
  | allFailed

/-- Result of one /chat request: the response sent, the cache state
afterwards, and the trace of provider invocations (provider URL with the
number of network attempts that invocation made), in order. -/
structure HandlerOut where
  resp : ChatResp
  cache : Cache
  calls : List (String × Nat)

/-- The condition under which the /chat loop stops at provider `p`: its
call succeeds and the normalized answer is usable (truthy). -/
def usableB (net : String → Nat → AttemptRes) (attempts : Nat) (p : String) : Bool :=
  (callProvider (net p) attempts).result.success &&
    truthy (extractAnswer (callProvider (net p) attempts).result.data)

/-- The normalized answer provider `p` yields under `net`. -/
def answerOf (net : String → Nat → AttemptRes) (attempts : Nat) (p : String) : Js :=
  extractAnswer (callProvider (net p) attempts).result.data

/-- The provider loop of the /chat route (second variant):

  for (const providerUrl of providers) {
    try {
      const result = await callProvider(providerUrl, req, { file: req.file });
      if (result.success) {
        const answer = extractAnswer(result.data);
        if (!answer) continue;
        cache.set(cacheKey, answer);
        return res.send(answer);
      }
    } catch (err) { ... }
  }
  return res.status(502).send("All providers failed.");
-/
def dispatchLoop (net : String → Nat → AttemptRes) (attempts : Nat)
    (cacheKey : String) (now ttl : Nat) :
    List String → Cache → HandlerOut
  | [], c => ⟨.allFailed, c, []⟩
  | p :: ps, c =>
    let out := callProvider (net p) attempts
    if out.result.success then
      let answer := extractAnswer out.result.data
      if truthy answer then
        ⟨.answered answer, c.setAt cacheKey answer now ttl, [(p, out.nAttempts)]⟩
      else
        let r := dispatchLoop net attempts cacheKey now ttl ps c
        ⟨r.resp, r.cache, (p, out.nAttempts) :: r.calls⟩
    else
      let r := dispatchLoop net attempts cacheKey now ttl ps c
      ⟨r.resp, r.cache, (p, out.nAttempts) :: r.calls⟩

/-- Embedding of the /chat route handler (second variant): the
missing-input guard, then the cache lookup, then the empty-provider-list
check, then the fallback loop over the effective provider list. -/
def handleChat (q : String) (file : Option FileInfo) (providers : List String)
    (net : String → Nat → AttemptRes) (attempts ttl now : Nat) (c : Cache) : HandlerOut :=
  if (q == "") && file.isNone then ⟨.missingInput, c, []⟩
  else
    let cached := c.getAt ("chat:" ++ q) now
    if truthy cached then ⟨.fromCache cached, c, []⟩
    else if providers.isEmpty then ⟨.noProviders, c, []⟩
    else dispatchLoop net attempts ("chat:" ++ q) now ttl providers c

/-- A two-provider oracle for concrete runs: "A" always throws, "B"
answers "ok" at once. -/
def netAB : String → Nat → AttemptRes :=
  fun p _ => if p == "B" then .ok (.str "ok") else .err "down"

/-- An oracle under which every provider fails on every attempt. -/
def netDown : String → Nat → AttemptRes :=
  fun _ _ => .err "down"

/-- Whether a payload is a plain string value. -/
def isStr : Js → Bool
  | .str _ => true
  | _ => false

/-- Whether any recognized answer field of the normalizer holds a truthy
value in `d`: result, answer, output, choices[0].text, or
choices[0].message.content. -/
def recognizedField (d : Js) : Bool :=
  truthy (getProp d "result") || truthy (getProp d "answer") || truthy (getProp d "output") ||
  truthy (getProp (getIndex (getProp d "choices") 0) "text") ||
  truthy (getProp (getProp (getIndex (getProp d "choices") 0) "message") "content")

example : extractAnswer (.str "hello") = .str "hello" := rfl
example : extractAnswer (.num 0) = .null := rfl
example :
    extractAnswer (.obj [("choices", .arr [.obj [("message", .obj [("content", .str "X")])]])])
      = .str "X" := rfl
example : extractAnswer (.obj [("foo", .str "bar")]) = .str "\x7b\"foo\":\"bar\"\x7d" := by
  simp only [extractAnswer, stringifyVal, stringifyObj, quoteStr, escChar]
  rfl
example : encodeURIComponent "hello world!" = "hello%20world!" := rfl
example : getUrlToCall "http://a?mode=quick&q=old" "hi" = "http://a?mode=quick&q=hi" := rfl
example : getUrlToCall "http://a?q=" "hi" = "http://a?q=hi" := rfl
example : (handleChat "foo" none ["A", "B"] netAB 2 30 0 ⟨[]⟩).resp = .answered (.str "ok") := rfl
example : (handleChat "foo" none ["A", "B"] netAB 2 30 0 ⟨[]⟩).calls = [("A", 2), ("B", 1)] := rfl
example : (callProvider (fun _ => .err "boom") 2).result.error = some "boom" := rfl

/-- A truthy value is never the null value. -/
theorem truthy_ne_null {v : Js} (h : truthy v = true) : v ≠ .null := by
  intro hv
  subst hv
  simp [truthy] at h

/-- The retry loop makes at least one attempt when an iteration remains. -/
theorem callFrom_nAttempts_pos (net : Nat → AttemptRes) (attempts attempt r : Nat) :
    1 ≤ (callFrom net attempts attempt (r + 1)).nAttempts := by
  unfold callFrom
  cases net attempt with
  | ok d => simp
  | err e => by_cases hl : attempt = attempts - 1 <;> simp [hl]

/-- Sleep trace of the retry loop from a given attempt index: one backoff
of 200 * (index + 1) milliseconds after every attempt made except the
last one. -/
theorem callFrom_sleeps_eq (net : Nat → AttemptRes) (attempts : Nat) :
    ∀ r attempt, attempt + r = attempts →
      (callFrom net attempts attempt r).sleeps =
        (List.range ((callFrom net attempts attempt r).nAttempts - 1)).map
          (fun i => 200 * (attempt + i + 1)) := by
  intro r
  induction r with
  | zero =>
    intro attempt h
    simp [callFrom]
  | succ r ih =>
    intro attempt h
    unfold callFrom
    cases net attempt with
    | ok d => simp
    | err e =>
      by_cases hl : attempt = attempts - 1
      · simp [hl]
      · simp only [hl, if_false]
        obtain ⟨r', rfl⟩ : ∃ r', r = r' + 1 := ⟨r - 1, by omega⟩
        have hpos := callFrom_nAttempts_pos net attempts (attempt + 1) r'
        have hih := ih (attempt + 1) (by omega)
        obtain ⟨m, hm⟩ : ∃ m, (callFrom net attempts (attempt + 1) (r' + 1)).nAttempts = m + 1 :=
          ⟨(callFrom net attempts (attempt + 1) (r' + 1)).nAttempts - 1, by omega⟩
        rw [hih, hm]
        simp only [Nat.add_sub_cancel, List.range_succ_eq_map, List.map_cons, List.map_map]
        refine congrArg₂ List.cons (by omega) ?_
        apply List.map_congr_left
        intro i _
        simp only [Function.comp_apply]
        omega

/-- Claim C7 counterexample: with an attempt budget of 2 and a failing
first attempt, the backoff slept before the retry is 200 milliseconds,
which is baseDelay times (attempt index + 1); the claim's formula, attempt
index times baseDelay, gives 0 for attempt index 0. -/
theorem callProvider_backoff_cx :
    (callProvider (fun _ => .err "boom") 2).sleeps = [200] ∧ (200 : Nat) ≠ 0 * 200 :=
  ⟨rfl, by decide⟩

/-- Claim C7 (amended): within one provider call, after a failed attempt
with index i that is not the last allowed attempt, the caller sleeps for a
backoff of (i + 1) * baseDelay (200 ms base) before retrying: the sleep
trace lists 200 * (i + 1) for every attempt index i made except the last. -/
theorem callProvider_backoff_amended (net : Nat → AttemptRes) (attempts : Nat) :
    (callProvider net attempts).sleeps =
      (List.range ((callProvider net attempts).nAttempts - 1)).map (fun i => 200 * (i + 1)) := by
  have h := callFrom_sleeps_eq net attempts attempts 0 (by omega)
  simpa [callProvider] using h

/-- Claim C9: a /chat request supplying neither query text nor a file is
answered with the missing-input error, the cache is untouched, and no
provider is invoked — no network call is made. -/
theorem chat_missing_input (providers : List String) (net : String → Nat → AttemptRes)
    (attempts ttl now : Nat) (c : Cache) :
    handleChat "" none providers net attempts ttl now c = ⟨.missingInput, c, []⟩ := rfl

/-- Claim C5 counterexample: the empty-string payload is not returned
unchanged by the normalizer; the falsy guard maps it to null (absent). -/
theorem extractAnswer_empty_string_cx :
    extractAnswer (.str "") = .null ∧ extractAnswer (.str "") ≠ .str "" :=
  ⟨rfl, fun h => Js.noConfusion h⟩

/-- Claim C5 (amended): the normalizer returns every non-empty plain
string payload unchanged; the empty-string payload yields absent (null). -/
theorem extractAnswer_nonempty_string (s : String) (h : s ≠ "") :
    extractAnswer (.str s) = .str s ∧ extractAnswer (.str "") = .null := by
  refine ⟨?_, rfl⟩
  simp [extractAnswer, truthy, h]

/-- Witness for the amended C5 theorem at the string "x". -/
theorem extractAnswer_nonempty_string_witness :
    ("x" : String) ≠ "" ∧
      (extractAnswer (.str "x") = .str "x" ∧ extractAnswer (.str "") = .null) :=
  ⟨by decide, extractAnswer_nonempty_string "x" (by decide)⟩

/-- Claim C4: when a file is attached and the provider URL contains
"image=", the multipart shape is selected regardless of any other
property of the URL: a POST to the URL with its trailing query component
stripped, the image field bound to the file's stored stream path, and a q
field present exactly when the query text is non-empty. -/
theorem shape_multipart_selected (url q : String) (f : FileInfo)
    (h : includes url "image=" = true) :
    ∃ qf, shapeRequest url q (some f) = .multipartPost (beforeQMark url) f.path qf ∧
      (qf = some q ↔ q ≠ "") ∧ (qf = none ↔ q = "") := by
  refine ⟨if q = "" then none else some q, ?_, ?_, ?_⟩
  · simp [shapeRequest, h]
  · by_cases hq : q = "" <;> simp [hq]
  · by_cases hq : q = "" <;> simp [hq]

/-- Witness for the C4 theorem: a URL that also contains '?' and '=' (the
GET triggers) still selects the multipart shape, with a q field for the
non-empty query text. -/
theorem shape_multipart_selected_witness :
    includes "http://x/api?image=&k=1" "image=" = true ∧
      ∃ qf, shapeRequest "http://x/api?image=&k=1" "hello" (some ⟨"/tmp/u1"⟩) =
          .multipartPost (beforeQMark "http://x/api?image=&k=1") "/tmp/u1" qf ∧
        (qf = some "hello" ↔ ("hello" : String) ≠ "") ∧ (qf = none ↔ ("hello" : String) = "") :=
  ⟨rfl, shape_multipart_selected "http://x/api?image=&k=1" "hello" ⟨"/tmp/u1"⟩ rfl⟩

/-- The normalizer never yields null on a truthy payload: every branch
returns either the string payload itself, a field value checked truthy,
or a serialized string. -/
theorem extractAnswer_ne_null {d : Js} (ht : truthy d = true) : extractAnswer d ≠ .null := by
  intro hh
  unfold extractAnswer at hh
  rw [ht] at hh
  simp only [Bool.not_true, Bool.false_eq_true, if_false] at hh
  cases d
  case null => simp [truthy] at ht
  case undefined => simp [truthy] at ht
  case str s => exact Js.noConfusion hh
  all_goals
    split_ifs at hh with h1 h2 h3 h4 h5
    · exact truthy_ne_null h1 hh
    · exact truthy_ne_null h2 hh
    · exact truthy_ne_null h3 hh
    · exact truthy_ne_null h4 hh
    · exact truthy_ne_null h5 hh
    · split at hh <;> exact Js.noConfusion hh

/-- Claim C2 counterexample: for "http://a?q=old&x=1" (a GET-shape URL
already carrying a q parameter) the claim's rule replaces the parameter's
value, yielding "http://a?q=hi&x=1", while the code appends the encoded
text as a raw suffix because it tests `endsWith("=")` and the substring
"=q" rather than the q= parameter pattern; and for "http://a?mode=q" the
emitted URL does not contain the encoded query text at all. -/
theorem getUrlToCall_claim_cx :
    shapeRequest "http://a?q=old&x=1" "hi" none = .getReq (getUrlToCall "http://a?q=old&x=1" "hi") ∧
    getUrlToCall "http://a?q=old&x=1" "hi" = "http://a?q=old&x=1hi" ∧
    claimUrlToCall "http://a?q=old&x=1" "hi" = "http://a?q=hi&x=1" ∧
    getUrlToCall "http://a?q=old&x=1" "hi" ≠ claimUrlToCall "http://a?q=old&x=1" "hi" ∧
    getUrlToCall "http://a?mode=q" "hi" = "http://a?mode=q" ∧
    includes (getUrlToCall "http://a?mode=q" "hi") (encodeURIComponent "hi") = false := by
  refine ⟨rfl, rfl, rfl, ?_, rfl, rfl⟩
  decide

/-- Claim C2 (amended): in the query-string GET shape the target URL is
constructed by: if the identifier ends with '=', append the URL-encoded
query text; else, if the identifier contains the substring "=q", replace
the value of the leftmost `q=[^&]*` match with the URL-encoded query text
(leaving the URL unchanged when no `q=` occurs); else append the
URL-encoded query text as a raw suffix. Whenever the identifier does not
contain "=q", the emitted URL is exactly the identifier followed by the
URL-encoded query text. -/
theorem getUrlToCall_amended_rule (url q : String)
    (h1 : includes url "?" = true) (h2 : includes url "=" = true)
    (h3 : includes url "image=" = false) :
    shapeRequest url q none = .getReq (amendedUrlToCall url q) ∧
    getUrlToCall url q = amendedUrlToCall url q ∧
    (includes url "=q" = false → getUrlToCall url q = url ++ encodeURIComponent q) := by
  refine ⟨?_, rfl, ?_⟩
  · simp [shapeRequest, shapeNoFile, h1, h2, h3]
    rfl
  · intro h4
    unfold getUrlToCall
    by_cases h5 : endsWithB url "=" <;> simp [h5, h4]

/-- Witness for the amended C2 theorem at "http://a?x=1" with query "hi". -/
theorem getUrlToCall_amended_rule_witness :
    includes "http://a?x=1" "?" = true ∧ includes "http://a?x=1" "=" = true ∧
    includes "http://a?x=1" "image=" = false ∧
    (shapeRequest "http://a?x=1" "hi" none = .getReq (amendedUrlToCall "http://a?x=1" "hi") ∧
     getUrlToCall "http://a?x=1" "hi" = amendedUrlToCall "http://a?x=1" "hi" ∧
     (includes "http://a?x=1" "=q" = false →
       getUrlToCall "http://a?x=1" "hi" = "http://a?x=1" ++ encodeURIComponent "hi")) :=
  ⟨rfl, rfl, rfl, getUrlToCall_amended_rule "http://a?x=1" "hi" rfl rfl rfl⟩

/-- Claim C6 counterexample: the payload `false` is neither null nor
undefined, yet the normalizer yields absent (null) for it instead of a
string, because the guard `if (!data)` catches every falsy payload. -/
theorem extractAnswer_falsy_cx :
    extractAnswer (.bool false) = .null ∧ Js.bool false ≠ .null ∧ Js.bool false ≠ .undefined :=
  ⟨rfl, fun h => Js.noConfusion h, fun h => Js.noConfusion h⟩

/-- Claim C6 (amended): the normalizer yields absent (null) exactly for
falsy payloads — null, undefined, false, the number 0, or the empty
string; and a truthy payload that is not a plain string and has no truthy
recognized field yields the payload's JSON serialization, a string. -/
theorem extractAnswer_absent_iff_falsy (d : Js) :
    (extractAnswer d = .null ↔ truthy d = false) ∧
    (truthy d = true → isStr d = false → recognizedField d = false →
      extractAnswer d = .str (jsonOf d)) := by
  constructor
  · constructor
    · intro h
      by_cases ht : truthy d = true
      · exact absurd h (extractAnswer_ne_null ht)
      · simpa using ht
    · intro h
      unfold extractAnswer
      rw [h]
      simp
  · intro ht hs hr
    simp only [recognizedField, Bool.or_eq_false_iff] at hr
    obtain ⟨⟨⟨⟨hr1, hr2⟩, hr3⟩, hr4⟩, hr5⟩ := hr
    unfold extractAnswer
    rw [ht]
    simp only [Bool.not_true, Bool.false_eq_true, if_false]
    cases d
    case null => simp [truthy] at ht
    case undefined => simp [truthy] at ht
    case str s => simp [isStr] at hs
    all_goals
      rw [if_neg, if_neg, if_neg, if_neg, if_neg] <;>
        simp only [hr1, hr2, hr3, hr4, hr5, Bool.false_eq_true, not_false_eq_true]
    all_goals simp [jsonOf, stringifyVal]

/-- Witness for the amended C6 theorem at an object payload with no
recognized field: absent does not occur, and the answer is the JSON
serialization string. -/
theorem extractAnswer_absent_iff_falsy_witness :
    (extractAnswer (.obj [("foo", .str "bar")]) = .null ↔
      truthy (.obj [("foo", .str "bar")]) = false) ∧
    extractAnswer (.obj [("foo", .str "bar")]) = .str (jsonOf (.obj [("foo", .str "bar")])) :=
  ⟨(extractAnswer_absent_iff_falsy (.obj [("foo", .str "bar")])).1,
   (extractAnswer_absent_iff_falsy (.obj [("foo", .str "bar")])).2 rfl rfl rfl⟩

/-- With every attempt failing, the retry loop of the provider caller
makes exactly `remaining` attempts, reports failure, and — when at least
one attempt is allowed — carries the error of the final attempt (index
attempts - 1). -/
theorem callFrom_all_err (net : Nat → AttemptRes) (attempts : Nat)
    (h : ∀ a, isErrB (net a) = true) :
    ∀ r attempt, attempt + r = attempts →
      (callFrom net attempts attempt r).nAttempts = r ∧
      (callFrom net attempts attempt r).result.success = false ∧
      (1 ≤ r → (callFrom net attempts attempt r).result.error = errMsg (net (attempts - 1))) := by
  intro r
  induction r with
  | zero =>
    intro attempt hinv
    simp [callFrom]
  | succ r ih =>
    intro attempt hinv
    unfold callFrom
    cases hna : net attempt with
    | ok d =>
      have hb := h attempt
      rw [hna] at hb
      simp [isErrB] at hb
    | err e =>
      by_cases hl : attempt = attempts - 1
      · have hr0 : r = 0 := by omega
        subst hr0
        have hlast : errMsg (net (attempts - 1)) = some e := by
          rw [← hl, hna]
          rfl
        simp [hl, hlast]
      · simp only [hl, if_false]
        have hrest := ih (attempt + 1) (by omega)
        have hr1 : 1 ≤ r := by omega
        exact ⟨by rw [hrest.1], hrest.2.1, fun _ => hrest.2.2 hr1⟩

/-- Claim C3: when every provider fails on every attempt, the dispatch
loop terminates with the all-providers-failed outcome and leaves the
cache untouched; each listed provider is invoked once with exactly
ATTEMPTS network attempts (never beyond the budget); and each provider's
call reports failure carrying the error of its last allowed attempt. -/
theorem dispatch_exhaustion (net : String → Nat → AttemptRes) (attempts : Nat)
    (cacheKey : String) (now ttl : Nat) (ps : List String) (c : Cache)
    (h : ∀ p a, isErrB (net p a) = true) :
    dispatchLoop net attempts cacheKey now ttl ps c
        = ⟨.allFailed, c, ps.map fun p => (p, attempts)⟩ ∧
    (1 ≤ attempts → ∀ p,
      (callProvider (net p) attempts).result.success = false ∧
      (callProvider (net p) attempts).result.error = errMsg (net p (attempts - 1))) := by
  have hcall : ∀ p, (callProvider (net p) attempts).nAttempts = attempts ∧
      (callProvider (net p) attempts).result.success = false ∧
      (1 ≤ attempts →
        (callProvider (net p) attempts).result.error = errMsg (net p (attempts - 1))) :=
    fun p => callFrom_all_err (net p) attempts (h p) attempts 0 (by omega)
  refine ⟨?_, fun ha p => ⟨(hcall p).2.1, (hcall p).2.2 ha⟩⟩
  induction ps with
  | nil => rfl
  | cons p ps ih =>
    unfold dispatchLoop
    dsimp only
    rw [(hcall p).2.1]
    simp only [Bool.false_eq_true, if_false, ih, (hcall p).1, List.map_cons]

/-- Witness for the C3 theorem: two providers, both always failing, under
an attempt budget of 2. -/
theorem dispatch_exhaustion_witness :
    (∀ p a, isErrB (netDown p a) = true) ∧
    (dispatchLoop netDown 2 "chat:foo" 0 30 ["A", "B"] ⟨[]⟩
        = ⟨.allFailed, ⟨[]⟩, ["A", "B"].map fun p => (p, 2)⟩ ∧
     (1 ≤ 2 → ∀ p, (callProvider (netDown p) 2).result.success = false ∧
        (callProvider (netDown p) 2).result.error = errMsg (netDown p (2 - 1)))) :=
  ⟨fun _ _ => rfl,
   dispatch_exhaustion netDown 2 "chat:foo" 0 30 ["A", "B"] ⟨[]⟩ (fun _ _ => rfl)⟩

/-- Claim C1: the fallback dispatcher is a strict priority fallback: when
every provider of the prefix `pre` is unusable (its call fails or its
normalized answer is not usable) and the next provider `p` is usable, the
loop returns `p`'s normalized answer, invokes each provider of `pre` and
then `p` exactly once each in list order, and never invokes any provider
after `p`. -/
theorem dispatch_priority_fallback (net : String → Nat → AttemptRes) (attempts : Nat)
    (cacheKey : String) (now ttl : Nat) (c : Cache) (pre post : List String) (p : String)
    (hpre : ∀ x ∈ pre, usableB net attempts x = false)
    (hp : usableB net attempts p = true) :
    (dispatchLoop net attempts cacheKey now ttl (pre ++ p :: post) c).resp
        = .answered (answerOf net attempts p) ∧
    (dispatchLoop net attempts cacheKey now ttl (pre ++ p :: post) c).calls
        = (pre ++ [p]).map fun x => (x, (callProvider (net x) attempts).nAttempts) := by
  have hsht : (callProvider (net p) attempts).result.success = true ∧
      truthy (extractAnswer (callProvider (net p) attempts).result.data) = true := by
    simpa [usableB] using hp
  obtain ⟨hs, ht⟩ := hsht
  induction pre with
  | nil =>
    simp only [List.nil_append]
    unfold dispatchLoop
    dsimp only
    rw [hs, ht]
    simp [answerOf]
  | cons x pre ih =>
    have hx := hpre x (List.mem_cons_self x pre)
    have hpre' : ∀ y ∈ pre, usableB net attempts y = false :=
      fun y hy => hpre y (List.mem_cons_of_mem x hy)
    have hmain := ih hpre'
    simp only [List.cons_append]
    unfold dispatchLoop
    dsimp only
    by_cases hsx : (callProvider (net x) attempts).result.success = true
    · have htx : truthy (extractAnswer (callProvider (net x) attempts).result.data) = false := by
        unfold usableB at hx
        rw [hsx] at hx
        simpa using hx
      rw [hsx, htx]
      simp only [Bool.false_eq_true, if_false, if_true, eq_self_iff_true]
      exact ⟨hmain.1, by simp [hmain.2]⟩
    · have hsx' : (callProvider (net x) attempts).result.success = false := by
        cases hb : (callProvider (net x) attempts).result.success
        · rfl
        · exact absurd hb hsx
      rw [hsx']
      simp only [Bool.false_eq_true, if_false]
      exact ⟨hmain.1, by simp [hmain.2]⟩

/-- Witness for the C1 theorem: providers ["A", "B", "C"] where "A"
always fails and "B" answers "ok": "A" then "B" are invoked once each
and "C" never. -/
theorem dispatch_priority_fallback_witness :
    (∀ x ∈ ["A"], usableB netAB 2 x = false) ∧ usableB netAB 2 "B" = true ∧
    ((dispatchLoop netAB 2 "chat:foo" 0 30 (["A"] ++ "B" :: ["C"]) ⟨[]⟩).resp
        = .answered (answerOf netAB 2 "B") ∧
     (dispatchLoop netAB 2 "chat:foo" 0 30 (["A"] ++ "B" :: ["C"]) ⟨[]⟩).calls
        = (["A"] ++ ["B"]).map fun x => (x, (callProvider (netAB x) 2).nAttempts)) :=
  ⟨by decide, by decide,
   dispatch_priority_fallback netAB 2 "chat:foo" 0 30 ⟨[]⟩ ["A"] ["C"] "B"
     (by decide) (by decide)⟩

/-- Unfolding of the dispatch loop at a usable head provider: the loop
stops, answers with its normalized answer, stores it in the cache, and
records exactly one invocation. -/
theorem dispatchLoop_cons_usable (net : String → Nat → AttemptRes) (attempts : Nat)
    (cacheKey : String) (now ttl : Nat) (p : String) (ps : List String) (c : Cache)
    (h : usableB net attempts p = true) :
    dispatchLoop net attempts cacheKey now ttl (p :: ps) c =
      ⟨.answered (answerOf net attempts p),
       c.setAt cacheKey (answerOf net attempts p) now ttl,
       [(p, (callProvider (net p) attempts).nAttempts)]⟩ := by
  have hsht : (callProvider (net p) attempts).result.success = true ∧
      truthy (extractAnswer (callProvider (net p) attempts).result.data) = true := by
    simpa [usableB] using h
  unfold dispatchLoop
  dsimp only
  rw [hsht.1, hsht.2]
  simp [answerOf]

/-- Unfolding of the dispatch loop at an unusable head provider: the loop
records one invocation of it and continues with the rest on the same
cache. -/
theorem dispatchLoop_cons_unusable (net : String → Nat → AttemptRes) (attempts : Nat)
    (cacheKey : String) (now ttl : Nat) (p : String) (ps : List String) (c : Cache)
    (h : usableB net attempts p = false) :
    dispatchLoop net attempts cacheKey now ttl (p :: ps) c =
      ⟨(dispatchLoop net attempts cacheKey now ttl ps c).resp,
       (dispatchLoop net attempts cacheKey now ttl ps c).cache,
       (p, (callProvider (net p) attempts).nAttempts)
         :: (dispatchLoop net attempts cacheKey now ttl ps c).calls⟩ := by
  conv_lhs => unfold dispatchLoop
  dsimp only
  by_cases hs : (callProvider (net p) attempts).result.success = true
  · have ht : truthy (extractAnswer (callProvider (net p) attempts).result.data) = false := by
      simpa [usableB, hs] using h
    rw [hs, ht]
    simp
  · have hs' : (callProvider (net p) attempts).result.success = false := by
      cases hb : (callProvider (net p) attempts).result.success
      · rfl
      · exact absurd hb hs
    rw [hs']
    simp

/-- When the dispatch loop answers, the answer is truthy (it passed the
usability check) and the cache afterwards is the input cache with the
answer stored under the cache key. -/
theorem dispatchLoop_answered (net : String → Nat → AttemptRes) (attempts : Nat)
    (cacheKey : String) (now ttl : Nat) :
    ∀ (ps : List String) (c : Cache) (a : Js),
      (dispatchLoop net attempts cacheKey now ttl ps c).resp = .answered a →
      truthy a = true ∧
      (dispatchLoop net attempts cacheKey now ttl ps c).cache = c.setAt cacheKey a now ttl := by
  intro ps
  induction ps with
  | nil =>
    intro c a h
    exact absurd h (by simp [dispatchLoop])
  | cons p ps ih =>
    intro c a h
    by_cases hu : usableB net attempts p = true
    · rw [dispatchLoop_cons_usable net attempts cacheKey now ttl p ps c hu] at h ⊢
      have ha : answerOf net attempts p = a := by
        injection h
      subst ha
      have hsht : (callProvider (net p) attempts).result.success = true ∧
          truthy (extractAnswer (callProvider (net p) attempts).result.data) = true := by
        simpa [usableB] using hu
      exact ⟨hsht.2, rfl⟩
    · have hu' : usableB net attempts p = false := by
        cases hb : usableB net attempts p
        · rfl
        · exact absurd hb hu
      rw [dispatchLoop_cons_unusable net attempts cacheKey now ttl p ps c hu'] at h ⊢
      exact ih c a h

/-- When the /chat handler answers freshly, the answer is truthy and the
cache afterwards is the input cache with the answer stored under the key
"chat:" ++ text. -/
theorem handleChat_answered (q : String) (file : Option FileInfo) (providers : List String)
    (net : String → Nat → AttemptRes) (attempts ttl now : Nat) (c : Cache) (a : Js)
    (h : (handleChat q file providers net attempts ttl now c).resp = .answered a) :
    truthy a = true ∧
    (handleChat q file providers net attempts ttl now c).cache
      = c.setAt ("chat:" ++ q) a now ttl := by
  unfold handleChat at h ⊢
  dsimp only at h ⊢
  by_cases hg : ((q == "") && file.isNone) = true
  · rw [hg] at h
    simp at h
  · have hg' : ((q == "") && file.isNone) = false := by
      cases hb : ((q == "") && file.isNone)
      · rfl
      · exact absurd hb hg
    rw [hg'] at h ⊢
    simp only [Bool.false_eq_true, if_false] at h ⊢
    by_cases hc : truthy (c.getAt ("chat:" ++ q) now) = true
    · rw [hc] at h
      simp at h
    · have hc' : truthy (c.getAt ("chat:" ++ q) now) = false := by
        cases hb : truthy (c.getAt ("chat:" ++ q) now)
        · rfl
        · exact absurd hb hc
      rw [hc'] at h ⊢
      simp only [Bool.false_eq_true, if_false] at h ⊢
      by_cases hp : providers.isEmpty = true
      · rw [hp] at h
        simp at h
      · have hp' : providers.isEmpty = false := by
          cases hb : providers.isEmpty
          · rfl
          · exact absurd hb hp
        rw [hp'] at h ⊢
        simp only [Bool.false_eq_true, if_false] at h ⊢
        exact dispatchLoop_answered net attempts ("chat:" ++ q) now ttl providers c a h

/-- Claim C8: cache idempotence keyed by the query text only: when a
/chat request with text q is freshly answered with `a`, the cache stores
`a` under exactly the key "chat:" ++ q with expiry t₁ + ttl; and a second
request with the same text at any time before that expiry — whatever its
file, provider list, oracle or attempt budget — is served the same answer
from the cache and invokes no provider. -/
theorem chat_cache_idempotent (q : String) (file file₂ : Option FileInfo)
    (providers providers₂ : List String) (net net₂ : String → Nat → AttemptRes)
    (attempts attempts₂ ttl t₁ t₂ : Nat) (c : Cache) (a : Js)
    (hq : q ≠ "")
    (h1 : (handleChat q file providers net attempts ttl t₁ c).resp = .answered a)
    (h2 : t₂ < t₁ + ttl) :
    (handleChat q file providers net attempts ttl t₁ c).cache.entries.lookup ("chat:" ++ q)
        = some ⟨a, t₁ + ttl⟩ ∧
    handleChat q file₂ providers₂ net₂ attempts₂ ttl t₂
        (handleChat q file providers net attempts ttl t₁ c).cache
      = ⟨.fromCache a, (handleChat q file providers net attempts ttl t₁ c).cache, []⟩ := by
  obtain ⟨hta, hcache⟩ := handleChat_answered q file providers net attempts ttl t₁ c a h1
  have hlook : (c.setAt ("chat:" ++ q) a t₁ ttl).entries.lookup ("chat:" ++ q)
      = some ⟨a, t₁ + ttl⟩ := by
    simp [Cache.setAt, List.lookup]
  have hget : (c.setAt ("chat:" ++ q) a t₁ ttl).getAt ("chat:" ++ q) t₂ = a := by
    simp [Cache.getAt, hlook, h2]
  refine ⟨by rw [hcache]; exact hlook, ?_⟩
  have hg : ((q == "") && file₂.isNone) = false := by
    have hq' : (q == "") = false := by
      simpa using hq
    simp [hq']
  rw [hcache]
  unfold handleChat
  dsimp only
  rw [hg]
  simp only [Bool.false_eq_true, if_false]
  rw [hget, hta]
  simp

/-- Claim C10: the cache lookup precedes the empty-provider-list check:
with a live cache entry for the query text, the request is served from
the cache even when the effective provider list is empty; and with a live
entry the no-providers-configured error is never the response, for any
provider list — it can only arise on a cache miss. -/
theorem chat_cached_despite_no_providers (q : String) (file : Option FileInfo)
    (net : String → Nat → AttemptRes) (attempts ttl now : Nat) (c : Cache)
    (h1 : truthy (c.getAt ("chat:" ++ q) now) = true)
    (h2 : ((q == "") && file.isNone) = false) :
    handleChat q file [] net attempts ttl now c
      = ⟨.fromCache (c.getAt ("chat:" ++ q) now), c, []⟩ ∧
    ∀ ps, (handleChat q file ps net attempts ttl now c).resp ≠ .noProviders := by
  constructor
  · unfold handleChat
    dsimp only
    rw [h2, h1]
    simp
  · intro ps
    unfold handleChat
    dsimp only
    rw [h2, h1]
    simp

/-- Witness for the C8 theorem: "foo" is answered "ok" by provider "B" at
time 0; a second request at time 10 with a different file, an empty
provider list and an all-failing oracle is still served "ok" from the
cache with no provider invoked. -/
theorem chat_cache_idempotent_witness :
    ("foo" : String) ≠ "" ∧
    (handleChat "foo" none ["B"] netAB 2 30 0 ⟨[]⟩).resp = .answered (.str "ok") ∧
    10 < 0 + 30 ∧
    ((handleChat "foo" none ["B"] netAB 2 30 0 ⟨[]⟩).cache.entries.lookup ("chat:" ++ "foo")
        = some ⟨.str "ok", 0 + 30⟩ ∧
     handleChat "foo" (some ⟨"/tmp/z"⟩) [] netDown 7 30 10
         (handleChat "foo" none ["B"] netAB 2 30 0 ⟨[]⟩).cache
       = ⟨.fromCache (.str "ok"), (handleChat "foo" none ["B"] netAB 2 30 0 ⟨[]⟩).cache, []⟩) :=
  ⟨by decide, rfl, by decide,
   chat_cache_idempotent "foo" none (some ⟨"/tmp/z"⟩) ["B"] [] netAB netDown 2 7 30 0 10 ⟨[]⟩
     (.str "ok") (by decide) rfl (by decide)⟩

/-- Witness for the C10 theorem: with a live entry for "chat:foo" and an
empty provider list, the cached answer is returned and no-providers is
never the response. -/
theorem chat_cached_despite_no_providers_witness :
    truthy ((⟨[("chat:foo", ⟨.str "ans", 30⟩)]⟩ : Cache).getAt ("chat:" ++ "foo") 0) = true ∧
    ((("foo" : String) == "") && (none : Option FileInfo).isNone) = false ∧
    (handleChat "foo" none [] netDown 2 30 0 ⟨[("chat:foo", ⟨.str "ans", 30⟩)]⟩
        = ⟨.fromCache ((⟨[("chat:foo", ⟨.str "ans", 30⟩)]⟩ : Cache).getAt ("chat:" ++ "foo") 0),
           ⟨[("chat:foo", ⟨.str "ans", 30⟩)]⟩, []⟩ ∧
     ∀ ps, (handleChat "foo" none ps netDown 2 30 0 ⟨[("chat:foo", ⟨.str "ans", 30⟩)]⟩).resp
        ≠ .noProviders) :=
  ⟨rfl, rfl,
   chat_cached_despite_no_providers "foo" none netDown 2 30 0
     ⟨[("chat:foo", ⟨.str "ans", 30⟩)]⟩ rfl rfl⟩

end MesuitBackend
